import Mathlib

/-!
Verification of the chunking-and-timestamp-reassembly pipeline of
src/app.py (speech recognizer producing an SRT subtitle file).

The Python source is shallowly embedded: numeric values that Python holds
as floats (segment times, the computed chunk duration) are modelled as
rationals; the counterexamples below use dyadic rationals on which the
corresponding float computations are exact, so the rational model and the
float program agree there.  Python ints are modelled as Nat/Int.  The
effectful loop of transcribe_audio_chunks is modelled as a pure fold that
also records the file-system events (temp-file creation/removal, final
write) the code performs, and the remote transcription call is a
parameter function that may fail, mirroring the try/except in the source.
-/

namespace SpeechRecognizer

/-- Python int() applied to a rational: truncation toward zero. -/
def pytrunc (x : ℚ) : ℤ :=
  if 0 ≤ x then ⌊x⌋ else -⌊-x⌋

/-- Python modulo on rationals for a positive modulus: x % y = x - y * floor (x / y).
For y = 0 Python raises; this model is only used with positive moduli. -/
def pymod (x y : ℚ) : ℚ :=
  x - y * ⌊x / y⌋

/-- Zero padding as performed by the Python format specs 02 and 03 on the
nonnegative field values that occur in format_time. -/
def zfill (w : ℕ) (s : String) : String :=
  if w ≤ s.length then s else String.mk (List.replicate (w - s.length) '0') ++ s

/-- Embedding of format_time (src/app.py lines 22-29): convert milliseconds to
the SRT timestamp format HH:MM:SS,mmm.  Each field is computed exactly as in
the source: int of a true division, with Python % on the running value. -/
def format_time (milliseconds : ℚ) : String :=
  let hours := pytrunc (milliseconds / (1000 * 60 * 60))
  let minutes := pytrunc (pymod milliseconds (1000 * 60 * 60) / (1000 * 60))
  let seconds := pytrunc (pymod milliseconds (1000 * 60) / 1000)
  let ms := pytrunc (pymod milliseconds 1000)
  zfill 2 (toString hours) ++ ":" ++ zfill 2 (toString minutes) ++ ":"
    ++ zfill 2 (toString seconds) ++ "," ++ zfill 3 (toString ms)

/-- Rendering of the spec formula for timestamps, written from the spec text:
HH = floor(m / 3600000), MM = floor((m mod 3600000) / 60000),
SS = floor((m mod 60000) / 1000), mmm = m mod 1000, zero-padded to 2/2/2/3. -/
def format_time_spec (m : ℕ) : String :=
  zfill 2 (toString (m / 3600000)) ++ ":" ++ zfill 2 (toString (m % 3600000 / 60000)) ++ ":"
    ++ zfill 2 (toString (m % 60000 / 1000)) ++ "," ++ zfill 3 (toString (m % 1000))

/-- One timed segment of the verbose_json transcription response
(src/app.py line 36: segment.start, segment.end, segment.text).  Times are
seconds; Python floats are modelled as rationals. -/
structure TranscriptSegment where
  start : ℚ
  «end» : ℚ
  text : String

/-- The verbose_json response: an ordered list of timed segments. -/
structure VerboseJson where
  segments : List TranscriptSegment

/-- Python str.strip() on the segment text (src/app.py line 40): removes
leading and trailing whitespace.  Implemented structurally over the character
list so that it evaluates. -/
def pystrip (s : String) : String :=
  String.mk (((s.data.dropWhile Char.isWhitespace).reverse.dropWhile Char.isWhitespace).reverse)

/-- One SRT block exactly as assembled in src/app.py lines 38-45:
index line, timing line from start*1000+offset and end*1000+offset,
stripped text line, each newline-terminated. -/
def srt_entry_block (idx : ℕ) (seg : TranscriptSegment) (off : ℚ) : String :=
  toString idx ++ "\n"
    ++ format_time (seg.start * 1000 + off) ++ " --> " ++ format_time (seg.«end» * 1000 + off) ++ "\n"
    ++ pystrip seg.text ++ "\n"

/-- The body of the for-loop of parse_verbose_json_to_srt: blocks numbered from
idx upward; mirrors subtitle_index += 1 (src/app.py lines 36-48). -/
def srt_blocks (segs : List TranscriptSegment) (idx : ℕ) (off : ℚ) : List String :=
  match segs with
  | [] => []
  | s :: rest => srt_entry_block idx s off :: srt_blocks rest (idx + 1) off

/-- Embedding of parse_verbose_json_to_srt (src/app.py lines 31-51).
subtitle_index is a local variable initialised to 1 on every call. -/
def parse_verbose_json_to_srt (json_response : VerboseJson) (start_time_offset : ℚ) : String :=
  String.intercalate "\n" (srt_blocks json_response.segments 1 start_time_offset)

/-- A chunk of the source audio as consumed by the orchestrator; len(chunk)
in pydub is its duration in whole milliseconds. -/
structure Chunk where
  durationMs : ℕ

/-- File-system actions performed by transcribe_audio_chunks, recorded so that
resource-lifetime claims are statable. -/
inductive FsEvent where
  | createFile (path : String)
  | removeFile (path : String)
  | writeFile (path : String) (content : String)
deriving DecidableEq

/-- The temp file name used for chunk i (src/app.py line 60). -/
def temp_chunk_path (i : ℕ) : String := "temp_chunk_" ++ toString i ++ ".mp3"

/-- State produced by the chunk loop of transcribe_audio_chunks: the per-chunk
SRT strings accumulated in transcription_result, the final value of
cumulative_start_time, the file events, and whether the loop ended by break. -/
structure LoopResult where
  results : List String
  finalOffset : ℕ
  events : List FsEvent
  truncated : Bool
deriving DecidableEq

/-- Embedding of the for-loop of transcribe_audio_chunks (src/app.py lines
58-81).  fn models the remote transcription call on the exported temp file of
chunk i (it may fail, like the try/except in the source); on success the SRT
text is appended and cumulative_start_time advances by len(chunk); on failure
the loop breaks, and in both cases the finally clause removes the temp file. -/
def chunk_loop (fn : ℕ → Chunk → Except String VerboseJson) :
    ℕ → ℕ → List Chunk → LoopResult
  | _, off, [] => ⟨[], off, [], false⟩
  | i, off, c :: rest =>
    match fn i c with
    | Except.ok resp =>
      let srt := parse_verbose_json_to_srt resp (off : ℚ)
      let r := chunk_loop fn (i + 1) (off + c.durationMs) rest
      ⟨srt :: r.results, r.finalOffset,
        FsEvent.createFile (temp_chunk_path i) :: FsEvent.removeFile (temp_chunk_path i) :: r.events,
        r.truncated⟩
    | Except.error _ =>
      ⟨[], off, [FsEvent.createFile (temp_chunk_path i), FsEvent.removeFile (temp_chunk_path i)],
        true⟩

/-- Result of a whole transcribe_audio_chunks run: the joined SRT text written
to the output file, the event trace, the truncation flag and the final offset. -/
structure RunResult where
  output : String
  results : List String
  events : List FsEvent
  truncated : Bool
  finalOffset : ℕ

/-- Embedding of transcribe_audio_chunks (src/app.py lines 53-87): runs the
chunk loop from index 0 and offset 0, then writes the joined SRT text. -/
def transcribe_audio_chunks (chunks : List Chunk)
    (fn : ℕ → Chunk → Except String VerboseJson) (output_srt_path : String) : RunResult :=
  let r := chunk_loop fn 0 0 chunks
  ⟨String.intercalate "\n" r.results, r.results,
    r.events ++ [FsEvent.writeFile output_srt_path (String.intercalate "\n" r.results)],
    r.truncated, r.finalOffset⟩

/-- The estimated chunk duration computed in src/app.py line 18:
max_chunk_size / (frame_rate * frame_width * channels) * 1000, in float
arithmetic, modelled exactly over the rationals. -/
def chunk_duration_ms (max_chunk_size frame_rate frame_width channels : ℚ) : ℚ :=
  max_chunk_size / (frame_rate * frame_width * channels) * 1000

/-- The chunk list built in src/app.py line 19 from the audio duration D (ms)
and the computed chunk duration C:
range(0, D, int(C)) with slices audio[i : i + C].  A chunk is modelled as its
millisecond interval (startMs, endMs), the slice end clamped to the buffer
end as pydub slicing does.  Python range raises ValueError when its step
int(C) is zero, and yields no indices when the step is negative. -/
def split_audio_chunks (D : ℕ) (C : ℚ) : Except String (List (ℚ × ℚ)) :=
  let step : ℤ := pytrunc C
  if step = 0 then Except.error "ValueError: range() arg 3 must not be zero"
  else if step < 0 then Except.ok []
  else
    Except.ok ((List.range ((D + step.toNat - 1) / step.toNat)).map
      fun k => (((k * step.toNat : ℕ) : ℚ), min (((k * step.toNat : ℕ) : ℚ) + C) ((D : ℕ) : ℚ)))

/-- Embedding of split_audio (src/app.py lines 15-20), with the AudioBuffer
abstracted to its duration D (ms) and raw byte-rate parameters. -/
def split_audio (D : ℕ) (max_chunk_size frame_rate frame_width channels : ℚ) :
    Except String (List (ℚ × ℚ)) :=
  split_audio_chunks D (chunk_duration_ms max_chunk_size frame_rate frame_width channels)

/-- Total duration in milliseconds of a list of chunks. -/
def durSum (l : List Chunk) : ℕ := (l.map Chunk.durationMs).sum

/-- The payload of a successful transcription result (placeholder on error;
only ever used where success is known). -/
def respOr (e : Except String VerboseJson) : VerboseJson :=
  match e with
  | Except.ok r => r
  | Except.error _ => ⟨[]⟩

/-- The SRT strings the loop accumulates over a run of successful chunks
starting at index i with cumulative offset off: chunk j is parsed with offset
off plus the durations of the chunks before it. -/
def expectedResults (fn : ℕ → Chunk → Except String VerboseJson) :
    ℕ → ℕ → List Chunk → List String
  | _, _, [] => []
  | i, off, c :: rest =>
    parse_verbose_json_to_srt (respOr (fn i c)) ((off : ℕ) : ℚ)
      :: expectedResults fn (i + 1) (off + c.durationMs) rest

/-- The temp-file events of a run of successful chunks starting at index i. -/
def expectedEvents : ℕ → List Chunk → List FsEvent
  | _, [] => []
  | i, _ :: rest =>
    FsEvent.createFile (temp_chunk_path i) :: FsEvent.removeFile (temp_chunk_path i)
      :: expectedEvents (i + 1) rest

/-- The chunk list split_audio_chunks produces for an integer chunk duration
c >= 1: starts 0, c, 2c, ... and ends clamped to the buffer end. -/
def chunksFor (D c : ℕ) : List (ℚ × ℚ) :=
  (List.range ((D + c - 1) / c)).map
    fun k => (((k * c : ℕ) : ℚ), min (((k * c : ℕ) : ℚ) + ((c : ℕ) : ℚ)) ((D : ℕ) : ℚ))

/-- Transcription function that always fails; models an unreachable or
erroring remote service. -/
def fail_fn : ℕ → Chunk → Except String VerboseJson := fun _ _ => Except.error "network error"

/-- Transcription function returning one segment (0s to 1s) per chunk, with
distinct texts for chunk 0 and the rest. -/
def two_chunk_fn : ℕ → Chunk → Except String VerboseJson := fun i _ =>
  Except.ok ⟨[⟨0, 1, if i = 0 then "Hello" else "world"⟩]⟩

/-- Modelled from the spec (the conversion formula the claim states):
startMs = round(segment.startSec * 1000) + offsetMs and
endMs = round(segment.endSec * 1000) + offsetMs.  The code never rounds; this
definition exists to compare the claimed formula with the code. -/
def toEntry_claim (seg : TranscriptSegment) (offsetMs : ℤ) : ℤ × ℤ :=
  (round (seg.start * 1000) + offsetMs, round (seg.«end» * 1000) + offsetMs)

/-- Transcription function that always succeeds with one fixed segment. -/
def ok_fn : ℕ → Chunk → Except String VerboseJson := fun _ _ =>
  Except.ok ⟨[⟨0, 1, "a"⟩]⟩

/-- A second definition with the same values as ok_fn. -/
def ok_fn2 : ℕ → Chunk → Except String VerboseJson := fun _ _ =>
  Except.ok ⟨[⟨0, 1, "a"⟩]⟩

/-- Transcription function succeeding on chunk 0 and failing afterwards. -/
def ok_then_fail_fn : ℕ → Chunk → Except String VerboseJson := fun i _ =>
  if i = 0 then Except.ok ⟨[⟨0, 1, "a"⟩]⟩ else Except.error "boom"

/-- Transcription function returning a segment for chunk 0 and an empty
segment list afterwards. -/
def empty_second_fn : ℕ → Chunk → Except String VerboseJson := fun i _ =>
  if i = 0 then Except.ok ⟨[⟨0, 1, "a"⟩]⟩ else Except.ok ⟨[]⟩

/-- floor of a quotient of natural-number casts is natural division. -/
lemma floor_natCast_div (m n : ℕ) : ⌊(m : ℚ) / (n : ℚ)⌋ = ((m / n : ℕ) : ℤ) := by
  rcases Nat.eq_zero_or_pos n with h | h
  · subst h; simp
  · have hn : (0 : ℚ) < n := by exact_mod_cast h
    rw [Int.floor_eq_iff]
    refine ⟨by exact_mod_cast Nat.cast_div_le, ?_⟩
    rw [div_lt_iff₀ hn]
    have hlt := Nat.lt_mul_div_succ m h
    push_cast
    calc (m : ℚ) < (n : ℚ) * ((m / n : ℕ) + 1) := by exact_mod_cast hlt
      _ = ((m / n : ℕ) + 1) * n := by ring

/-- Python int() of a quotient of natural-number casts is natural division. -/
lemma pytrunc_natCast_div (m n : ℕ) : pytrunc ((m : ℚ) / (n : ℚ)) = ((m / n : ℕ) : ℤ) := by
  rw [pytrunc, if_pos (by positivity), floor_natCast_div]

/-- Python % on natural-number casts is natural mod. -/
lemma pymod_natCast (m n : ℕ) : pymod (m : ℚ) (n : ℚ) = ((m % n : ℕ) : ℚ) := by
  unfold pymod
  rw [floor_natCast_div]
  have h2 := Nat.div_add_mod m n
  have h3 : ((n : ℚ)) * ((m / n : ℕ) : ℚ) + ((m % n : ℕ) : ℚ) = (m : ℚ) := by exact_mod_cast h2
  have h4 : (((m / n : ℕ) : ℤ) : ℚ) = ((m / n : ℕ) : ℚ) := Int.cast_natCast _
  rw [h4]
  linarith

/-- Python int() of a natural-number cast is that natural number. -/
lemma pytrunc_natCast (k : ℕ) : pytrunc ((k : ℕ) : ℚ) = (k : ℤ) := by
  rw [pytrunc, if_pos (by positivity)]
  exact_mod_cast Int.floor_natCast k

lemma toString_intCast_nat (n : ℕ) : toString ((n : ℤ)) = toString n := rfl

/-- On whole milliseconds the embedded format_time agrees with the spec formula. -/
theorem format_time_natCast (m : ℕ) : format_time ((m : ℕ) : ℚ) = format_time_spec m := by
  have e1 : ((1000 : ℚ) * 60 * 60) = ((3600000 : ℕ) : ℚ) := by norm_num
  have e2 : ((1000 : ℚ) * 60) = ((60000 : ℕ) : ℚ) := by norm_num
  have e3 : (1000 : ℚ) = ((1000 : ℕ) : ℚ) := by norm_num
  simp only [format_time, format_time_spec]
  rw [e1, e2, e3]
  simp only [pymod_natCast, pytrunc_natCast_div, pytrunc_natCast, toString_intCast_nat]

lemma expectedResults_length (fn : ℕ → Chunk → Except String VerboseJson) :
    ∀ i off l, (expectedResults fn i off l).length = l.length := by
  intro i off l
  induction l generalizing i off with
  | nil => rfl
  | cons c rest ih => simp [expectedResults, ih]

/-- Splicing lemma: while every chunk of the leading list pre succeeds, the
loop accumulates exactly the expected results and events over pre, advances
the offset by the total duration of pre, and continues on the remainder. -/
lemma chunk_loop_append (fn : ℕ → Chunk → Except String VerboseJson)
    (pre rest : List Chunk) :
    ∀ i off, (∀ j cj, pre[j]? = some cj → (fn (i + j) cj).isOk = true) →
      chunk_loop fn i off (pre ++ rest) =
        ⟨expectedResults fn i off pre
            ++ (chunk_loop fn (i + pre.length) (off + durSum pre) rest).results,
          (chunk_loop fn (i + pre.length) (off + durSum pre) rest).finalOffset,
          expectedEvents i pre ++ (chunk_loop fn (i + pre.length) (off + durSum pre) rest).events,
          (chunk_loop fn (i + pre.length) (off + durSum pre) rest).truncated⟩ := by
  induction pre with
  | nil =>
    intro i off _
    simp [expectedResults, expectedEvents, durSum]
  | cons c pre ih =>
    intro i off h
    have hc : (fn i c).isOk = true := by
      have := h 0 c (by simp)
      simpa using this
    obtain ⟨resp, hresp⟩ : ∃ r, fn i c = Except.ok r := by
      cases hfc : fn i c with
      | ok r => exact ⟨r, rfl⟩
      | error e => rw [hfc] at hc; simp [Except.isOk, Except.toBool] at hc
    have hlen : i + (c :: pre).length = (i + 1) + pre.length := by
      simp; omega
    have hoff : off + durSum (c :: pre) = (off + c.durationMs) + durSum pre := by
      simp [durSum]; omega
    have htail : ∀ j cj, pre[j]? = some cj → (fn ((i + 1) + j) cj).isOk = true := by
      intro j cj hj
      have := h (j + 1) cj (by simpa using hj)
      have harith : i + (j + 1) = (i + 1) + j := by omega
      rwa [harith] at this
    simp only [List.cons_append, chunk_loop, hresp, List.append_eq]
    rw [ih (i + 1) (off + c.durationMs) htail]
    simp only [expectedResults, expectedEvents, hresp, respOr, hlen, hoff, List.cons_append,
      List.length_cons]
    rw [show i + (pre.length + 1) = i + 1 + pre.length from by omega]

/-- The loop depends on the transcription function only through its values. -/
lemma chunk_loop_congr (fn g : ℕ → Chunk → Except String VerboseJson)
    (h : ∀ i c, fn i c = g i c) :
    ∀ l i off, chunk_loop fn i off l = chunk_loop g i off l := by
  intro l
  induction l with
  | nil => intro i off; rfl
  | cons c rest ih => intro i off; simp only [chunk_loop, h, ih]

lemma split_audio_chunks_natCast (D c : ℕ) (hc : 1 ≤ c) :
    split_audio_chunks D ((c : ℕ) : ℚ) = Except.ok (chunksFor D c) := by
  have h1 : ((c : ℤ)) ≠ 0 := by exact_mod_cast Nat.one_le_iff_ne_zero.mp hc
  have h2 : ¬ ((c : ℤ) < 0) := not_lt.mpr (Int.natCast_nonneg c)
  simp only [split_audio_chunks, chunksFor, pytrunc_natCast, Int.toNat_natCast]
  rw [if_neg h1, if_neg h2]

lemma count_mul_bounds (D c : ℕ) (hc : 1 ≤ c) :
    D ≤ ((D + c - 1) / c) * c ∧ ((D + c - 1) / c) * c < D + c := by
  have h := Nat.div_add_mod (D + c - 1) c
  have hr : (D + c - 1) % c < c := Nat.mod_lt _ (by omega)
  rw [Nat.mul_comm c ((D + c - 1) / c)] at h
  generalize ((D + c - 1) / c) * c = qc at h ⊢
  generalize (D + c - 1) % c = r at h hr
  omega

lemma chunksFor_start_lt (D c k : ℕ) (hc : 1 ≤ c) (hk : k < (D + c - 1) / c) :
    k * c < D := by
  have h2 := (count_mul_bounds D c hc).2
  have h3 : (k + 1) * c ≤ ((D + c - 1) / c) * c := Nat.mul_le_mul_right c hk
  rw [Nat.succ_mul] at h3
  generalize k * c = a at h3 ⊢
  generalize ((D + c - 1) / c) * c = b at h2 h3
  omega

/-- Python range count: len(range(0, D, c)) = ceil(D / c) for c >= 1. -/
lemma count_eq_ceil (D c : ℕ) (hc : 1 ≤ c) :
    (((D + c - 1) / c : ℕ) : ℤ) = ⌈((D : ℕ) : ℚ) / ((c : ℕ) : ℚ)⌉ := by
  rcases Nat.eq_zero_or_pos D with hD | hD
  · subst hD
    have : (c - 1) / c = 0 := Nat.div_eq_of_lt (by omega)
    simp [this]
  · have hc0 : (0 : ℚ) < ((c : ℕ) : ℚ) := by exact_mod_cast hc
    have hb := count_mul_bounds D c hc
    symm
    rw [Int.ceil_eq_iff]
    constructor
    · have key : (((D + c - 1) / c : ℕ) : ℚ) * c < (D : ℚ) + c := by exact_mod_cast hb.2
      have : ((((D + c - 1) / c : ℕ) : ℚ) - 1) * c < (D : ℚ) := by
        rw [sub_mul]; linarith
      calc ((((D + c - 1) / c : ℕ) : ℤ) : ℚ) - 1
          = (((D + c - 1) / c : ℕ) : ℚ) - 1 := by rw [Int.cast_natCast]
        _ < (D : ℚ) / (c : ℚ) := by rw [lt_div_iff₀ hc0]; exact this
    · rw [div_le_iff₀ hc0]
      push_cast
      exact_mod_cast hb.1

lemma range_telescope (g : ℕ → ℚ) (m : ℕ) :
    (((List.range m).map fun k => g (k + 1) - g k).sum) = g m - g 0 := by
  induction m with
  | zero => simp
  | succ n ih =>
    rw [List.range_succ, List.map_append, List.sum_append, ih]
    simp

lemma chunksFor_length (D c : ℕ) : (chunksFor D c).length = (D + c - 1) / c := by
  simp [chunksFor]

lemma chunksFor_getElem (D c k : ℕ) (hk : k < (D + c - 1) / c) :
    (chunksFor D c)[k]? =
      some (((k * c : ℕ) : ℚ), min (((k * c : ℕ) : ℚ) + ((c : ℕ) : ℚ)) ((D : ℕ) : ℚ)) := by
  simp [chunksFor, List.getElem?_range, hk]

lemma succ_mul_cast (c k : ℕ) : ((k * c : ℕ) : ℚ) + ((c : ℕ) : ℚ) = (((k + 1) * c : ℕ) : ℚ) := by
  push_cast [Nat.succ_mul]
  ring

/-- Contiguity for integer chunk durations: each chunk ends where the next
one starts. -/
lemma chunksFor_snd_eq (D c k : ℕ) (hc : 1 ≤ c) (hk : k + 1 < (D + c - 1) / c) :
    min (((k * c : ℕ) : ℚ) + ((c : ℕ) : ℚ)) ((D : ℕ) : ℚ) = (((k + 1) * c : ℕ) : ℚ) := by
  have h1 : (k + 1) * c < D := chunksFor_start_lt D c (k + 1) hc hk
  rw [succ_mul_cast, min_eq_left]
  exact_mod_cast le_of_lt h1

/-- The interval lengths of the integer-duration chunk list sum to the buffer
duration. -/
lemma chunksFor_sum (D c : ℕ) (hc : 1 ≤ c) :
    ((chunksFor D c).map fun p => p.2 - p.1).sum = ((D : ℕ) : ℚ) := by
  unfold chunksFor
  rw [List.map_map]
  have hcongr : ∀ k ∈ List.range ((D + c - 1) / c),
      ((fun p : ℚ × ℚ => p.2 - p.1) ∘
        fun k => (((k * c : ℕ) : ℚ), min (((k * c : ℕ) : ℚ) + ((c : ℕ) : ℚ)) ((D : ℕ) : ℚ))) k =
      min ((((k + 1) * c : ℕ)) : ℚ) ((D : ℕ) : ℚ) - min (((k * c : ℕ)) : ℚ) ((D : ℕ) : ℚ) := by
    intro k hk
    rw [List.mem_range] at hk
    have h1 : k * c < D := chunksFor_start_lt D c k hc hk
    have hle : ((k * c : ℕ) : ℚ) ≤ ((D : ℕ) : ℚ) := by exact_mod_cast le_of_lt h1
    simp only [Function.comp_apply]
    rw [succ_mul_cast]
    rw [min_eq_left hle]
  rw [List.map_congr_left hcongr]
  have tel := range_telescope (fun j => min (((j * c : ℕ)) : ℚ) ((D : ℕ) : ℚ)) ((D + c - 1) / c)
  simp only at tel
  rw [tel]
  have hDle : ((D : ℕ) : ℚ) ≤ (((((D + c - 1) / c) * c : ℕ)) : ℚ) := by
    exact_mod_cast (count_mul_bounds D c hc).1
  rw [min_eq_right hDle]
  simp

/-- The final chunk runs to the buffer end. -/
lemma chunksFor_last (D c : ℕ) (hc : 1 ≤ c) (hD : 0 < D) :
    (chunksFor D c)[(D + c - 1) / c - 1]? =
      some ((((((D + c - 1) / c - 1) * c : ℕ)) : ℚ), ((D : ℕ) : ℚ)) := by
  have hm : 0 < (D + c - 1) / c := by
    have h1 : c ≤ D + c - 1 := by omega
    exact (Nat.one_le_div_iff (by omega)).mpr h1
  rw [chunksFor_getElem D c _ (by omega)]
  have h2 : (((((D + c - 1) / c - 1) * c : ℕ)) : ℚ) + ((c : ℕ) : ℚ)
      = ((((D + c - 1) / c) * c : ℕ) : ℚ) := by
    have h3 : ((D + c - 1) / c - 1) * c + c = ((D + c - 1) / c) * c := by
      have hm1 : (D + c - 1) / c - 1 + 1 = (D + c - 1) / c := by omega
      calc ((D + c - 1) / c - 1) * c + c = (((D + c - 1) / c - 1) + 1) * c := by
            rw [Nat.succ_mul]
        _ = ((D + c - 1) / c) * c := by rw [hm1]
    exact_mod_cast h3
  have hDle : ((D : ℕ) : ℚ) ≤ (((((D + c - 1) / c) * c : ℕ)) : ℚ) := by
    exact_mod_cast (count_mul_bounds D c hc).1
  rw [h2, min_eq_right hDle]

/-- A zero-length buffer yields the empty chunk list whenever the range step
int(C) is nonzero. -/
lemma split_audio_chunks_zero_dur (C : ℚ) (h : pytrunc C ≠ 0) :
    split_audio_chunks 0 C = Except.ok [] := by
  simp only [split_audio_chunks]
  rcases lt_or_gt_of_ne h with hneg | hpos
  · rw [if_neg h, if_pos hneg]
  · rw [if_neg h, if_neg (by omega)]
    have ht : 1 ≤ (pytrunc C).toNat := by omega
    have h0 : (0 + (pytrunc C).toNat - 1) / (pytrunc C).toNat = 0 := Nat.div_eq_of_lt (by omega)
    rw [h0]
    rfl

/-- When int(C) = 0 (for example max_chunk_size = 0, or a small positive
budget making C < 1), range raises ValueError. -/
lemma split_audio_chunks_step_zero (D : ℕ) (C : ℚ) (h : pytrunc C = 0) :
    split_audio_chunks D C = Except.error "ValueError: range() arg 3 must not be zero" := by
  simp only [split_audio_chunks]
  rw [if_pos h]

/-- When int(C) is negative (sufficiently negative byte budget), range is
empty and split_audio silently returns no chunks. -/
lemma split_audio_chunks_neg_step (D : ℕ) (C : ℚ) (h : pytrunc C < 0) :
    split_audio_chunks D C = Except.ok [] := by
  simp only [split_audio_chunks]
  rw [if_neg (by omega), if_pos h]

/-- The SRT string stored for a chunk that succeeds after an all-successful
run of earlier chunks: parsed with offset equal to the total duration of the
chunks before it. -/
lemma run_results_at (pre : List Chunk) (c : Chunk) (post : List Chunk)
    (fn : ℕ → Chunk → Except String VerboseJson) (p : String) (resp : VerboseJson)
    (hok : ∀ j cj, pre[j]? = some cj → (fn j cj).isOk = true)
    (hc : fn pre.length c = Except.ok resp) :
    (transcribe_audio_chunks (pre ++ c :: post) fn p).results[pre.length]?
      = some (parse_verbose_json_to_srt resp ((durSum pre : ℕ) : ℚ)) := by
  have hsplice := chunk_loop_append fn pre (c :: post) 0 0
    (by intro j cj hj; simpa using hok j cj hj)
  simp only [Nat.zero_add] at hsplice
  have hlen : (expectedResults fn 0 0 pre).length = pre.length := expectedResults_length fn 0 0 pre
  unfold transcribe_audio_chunks
  simp only [hsplice]
  rw [List.getElem?_append_right (le_of_eq hlen), hlen, Nat.sub_self]
  simp only [chunk_loop, hc]
  simp

/-- C5: if the transcription function fails first at chunk index i (all
chunks before i succeed), the orchestrator stops there (the run is identical
to the run on the input truncated after chunk i, so chunks i+1 onward are
never processed, with no retry and no skip), retains exactly the SRT strings
accumulated for chunks 0..i-1 with their offsets equal to the partial sums of
durations (expectedResults), is truncated, and still writes the output file
with exactly that prefix-derived text; the model is a total function, so the
run completes without crashing. -/
theorem C5_failure_policy (pre : List Chunk) (c : Chunk) (post : List Chunk)
    (fn : ℕ → Chunk → Except String VerboseJson) (p e : String)
    (hok : ∀ j cj, pre[j]? = some cj → (fn j cj).isOk = true)
    (hfail : fn pre.length c = Except.error e) :
    transcribe_audio_chunks (pre ++ c :: post) fn p
        = transcribe_audio_chunks (pre ++ [c]) fn p
    ∧ (transcribe_audio_chunks (pre ++ c :: post) fn p).results = expectedResults fn 0 0 pre
    ∧ (transcribe_audio_chunks (pre ++ c :: post) fn p).truncated = true
    ∧ (transcribe_audio_chunks (pre ++ c :: post) fn p).output
        = String.intercalate "\n" (expectedResults fn 0 0 pre)
    ∧ FsEvent.writeFile p (String.intercalate "\n" (expectedResults fn 0 0 pre))
        ∈ (transcribe_audio_chunks (pre ++ c :: post) fn p).events := by
  have h0 : ∀ j cj, pre[j]? = some cj → (fn (0 + j) cj).isOk = true := by
    intro j cj hj; simpa using hok j cj hj
  have hsplice := chunk_loop_append fn pre (c :: post) 0 0 h0
  have hsplice1 := chunk_loop_append fn pre [c] 0 0 h0
  simp only [Nat.zero_add] at hsplice hsplice1
  have herr : ∀ rest : List Chunk, chunk_loop fn pre.length (durSum pre) (c :: rest)
      = ⟨[], durSum pre, [FsEvent.createFile (temp_chunk_path pre.length),
          FsEvent.removeFile (temp_chunk_path pre.length)], true⟩ := by
    intro rest
    simp only [chunk_loop, hfail]
  rw [herr] at hsplice
  rw [herr] at hsplice1
  unfold transcribe_audio_chunks
  rw [hsplice, hsplice1]
  simp

/-- C6: every chunk iteration that reaches the transcription step (all
earlier chunks succeeded) removes its temporary file, whatever the outcome of
the transcription function for that chunk: the removeFile event for
temp_chunk_i is in the trace on the success path and on the error path. -/
theorem C6_temp_file_cleanup (pre : List Chunk) (c : Chunk) (post : List Chunk)
    (fn : ℕ → Chunk → Except String VerboseJson) (p : String)
    (hok : ∀ j cj, pre[j]? = some cj → (fn j cj).isOk = true) :
    FsEvent.removeFile (temp_chunk_path pre.length)
      ∈ (transcribe_audio_chunks (pre ++ c :: post) fn p).events := by
  have hsplice := chunk_loop_append fn pre (c :: post) 0 0
    (by intro j cj hj; simpa using hok j cj hj)
  simp only [Nat.zero_add] at hsplice
  unfold transcribe_audio_chunks
  simp only [hsplice]
  cases hfc : fn pre.length c with
  | ok r => simp [chunk_loop, hfc]
  | error e => simp [chunk_loop, hfc]

/-- C7 counterexample: the claim says the cumulative offset is advanced by the
chunk duration after every transcription attempt regardless of outcome; in the
code cumulative_start_time += len(chunk) sits inside the try block after the
call, so a failed attempt does not advance it: a single 5000 ms chunk whose
transcription fails leaves the offset at 0, not 5000. -/
theorem C7_counterexample :
    (transcribe_audio_chunks [⟨5000⟩] fail_fn "transcription.srt").finalOffset = 0
    ∧ (0 : ℕ) ≠ 5000 := by
  constructor
  · rfl
  · decide

/-- C7 amended: the cumulative offset starts at 0 and is advanced by exactly
the chunk duration after each successful transcription (not after a failed
attempt), and is never decremented; consequently the offset applied when chunk
i's segments are converted equals the sum of the durations of chunks 0..i-1,
and on an all-successful run the final offset is the total duration. -/
theorem C7_amended (pre : List Chunk) (c : Chunk) (post : List Chunk)
    (fn : ℕ → Chunk → Except String VerboseJson) (p : String) (resp : VerboseJson)
    (hok : ∀ j cj, pre[j]? = some cj → (fn j cj).isOk = true)
    (hc : fn pre.length c = Except.ok resp) :
    (transcribe_audio_chunks (pre ++ c :: post) fn p).results[pre.length]?
        = some (parse_verbose_json_to_srt resp ((durSum pre : ℕ) : ℚ))
    ∧ ((∀ j cj, (pre ++ c :: post)[j]? = some cj → (fn j cj).isOk = true) →
        (transcribe_audio_chunks (pre ++ c :: post) fn p).finalOffset
          = durSum (pre ++ c :: post)) := by
  constructor
  · exact run_results_at pre c post fn p resp hok hc
  · intro hall
    have hsplice := chunk_loop_append fn (pre ++ c :: post) [] 0 0
      (by intro j cj hj; simpa using hall j cj hj)
    simp only [Nat.zero_add, List.append_nil] at hsplice
    unfold transcribe_audio_chunks
    rw [hsplice]
    simp [chunk_loop]

/-- C9: the pipeline output is a function of the chunk sequence and the
per-chunk transcription results alone: two runs with transcription functions
returning the same value for every chunk produce the identical RunResult, in
particular byte-identical SRT output. -/
theorem C9_deterministic (chunks : List Chunk)
    (fn g : ℕ → Chunk → Except String VerboseJson) (p : String)
    (h : ∀ i c, fn i c = g i c) :
    transcribe_audio_chunks chunks fn p = transcribe_audio_chunks chunks g p := by
  unfold transcribe_audio_chunks
  rw [chunk_loop_congr fn g h]

/-- C10: parsing a response with no segments yields the empty string for any
offset, and a successfully transcribed chunk with zero segments still
contributes that empty string as an element of the accumulated results (hence
an empty element of the final joined output). -/
theorem C10_empty_segments (off : ℚ) (pre : List Chunk) (c : Chunk) (post : List Chunk)
    (fn : ℕ → Chunk → Except String VerboseJson) (p : String)
    (hok : ∀ j cj, pre[j]? = some cj → (fn j cj).isOk = true)
    (hc : fn pre.length c = Except.ok ⟨[]⟩) :
    parse_verbose_json_to_srt ⟨[]⟩ off = ""
    ∧ (transcribe_audio_chunks (pre ++ c :: post) fn p).results[pre.length]? = some "" := by
  constructor
  · rfl
  · have h := run_results_at pre c post fn p ⟨[]⟩ hok hc
    simpa [parse_verbose_json_to_srt, srt_blocks] using h

/-- C4: for every whole-millisecond value m >= 0, format_time renders
HH:MM:SS,mmm with HH = floor(m/3600000), MM = floor((m mod 3600000)/60000),
SS = floor((m mod 60000)/1000), mmm = m mod 1000, zero-padded to 2/2/2/3
digits with HH unbounded (format_time_spec is exactly that formula); in
particular the three documented examples hold. -/
theorem C4_format_time_correct :
    (∀ m : ℕ, format_time ((m : ℕ) : ℚ) = format_time_spec m)
    ∧ format_time 0 = "00:00:00,000"
    ∧ format_time 3661001 = "01:01:01,001"
    ∧ format_time 61000 = "00:01:01,000" := by
  refine ⟨format_time_natCast, ?_, ?_, ?_⟩
  · simp only [format_time, pymod, pytrunc]
    norm_num
    decide
  · simp only [format_time, pymod, pytrunc]
    norm_num
    decide
  · simp only [format_time, pymod, pytrunc]
    norm_num
    decide

/-- C2 counterexample: for a 10 ms buffer and computed chunk duration
C = 5/2 (run achievable with max_chunk_size 80 at byte rate 32000, where the
float arithmetic is exact), the loop steps by int(C) = 2 but slices width 2.5:
the five chunks overlap, their lengths sum to 12, not 10, and the count 5
differs from ceil(D / C) = 4. -/
theorem C2_counterexample :
    split_audio 10 80 16000 2 1
      = Except.ok [((0 : ℚ), (5 : ℚ)/2), (2, 9/2), (4, 13/2), (6, 17/2), (8, 10)]
    ∧ (⌈(10 : ℚ) / ((5 : ℚ)/2)⌉ = 4)
    ∧ (([((0 : ℚ), (5 : ℚ)/2), (2, 9/2), (4, 13/2), (6, 17/2), (8, 10)].map
        fun p => p.2 - p.1).sum = 12) := by
  refine ⟨?_, by norm_num, by norm_num⟩
  have hC : chunk_duration_ms 80 16000 2 1 = (5 : ℚ)/2 := by
    unfold chunk_duration_ms
    norm_num
  have hp : pytrunc ((5 : ℚ)/2) = 2 := by norm_num [pytrunc]
  unfold split_audio
  rw [hC]
  simp only [split_audio_chunks, hp]
  rw [show Int.toNat 2 = 2 from rfl]
  norm_num [List.range_succ, min_def]

/-- C2 amended: the claimed properties hold when the computed chunk duration
is a positive integer c: split_audio_chunks returns chunksFor D c, whose
count is ceil(D/c), whose chunks are nonempty intervals, adjacent ones sharing
an endpoint (contiguous, hence non-overlapping), whose durations sum to
exactly D, and whose final chunk runs to the buffer end D.  (For non-integer
C the walk steps by int(C) while slicing width C, and the counterexample
applies.) -/
theorem C2_amended (D c : ℕ) (hc : 1 ≤ c) :
    split_audio_chunks D ((c : ℕ) : ℚ) = Except.ok (chunksFor D c)
    ∧ ((chunksFor D c).length : ℤ) = ⌈((D : ℕ) : ℚ) / ((c : ℕ) : ℚ)⌉
    ∧ (∀ k, k < (chunksFor D c).length →
        ∃ x, (chunksFor D c)[k]? = some x ∧ x.1 < x.2)
    ∧ (∀ k, k + 1 < (chunksFor D c).length → ∃ x y,
        (chunksFor D c)[k]? = some x ∧ (chunksFor D c)[k + 1]? = some y ∧ x.2 = y.1)
    ∧ ((chunksFor D c).map fun x => x.2 - x.1).sum = ((D : ℕ) : ℚ)
    ∧ (0 < D → (chunksFor D c)[(chunksFor D c).length - 1]?
        = some ((((((D + c - 1) / c - 1) * c : ℕ)) : ℚ), ((D : ℕ) : ℚ))) := by
  refine ⟨split_audio_chunks_natCast D c hc, ?_, ?_, ?_, chunksFor_sum D c hc, ?_⟩
  · rw [chunksFor_length]
    exact count_eq_ceil D c hc
  · intro k hk
    rw [chunksFor_length] at hk
    refine ⟨_, chunksFor_getElem D c k hk, ?_⟩
    have h1 : k * c < D := chunksFor_start_lt D c k hc hk
    have h2 : ((k * c : ℕ) : ℚ) < ((D : ℕ) : ℚ) := by exact_mod_cast h1
    have h3 : ((k * c : ℕ) : ℚ) < ((k * c : ℕ) : ℚ) + ((c : ℕ) : ℚ) := by
      have : (0 : ℚ) < ((c : ℕ) : ℚ) := by exact_mod_cast hc
      linarith
    exact lt_min h3 h2
  · intro k hk
    rw [chunksFor_length] at hk
    refine ⟨_, _, chunksFor_getElem D c k (by omega), chunksFor_getElem D c (k + 1) hk, ?_⟩
    exact chunksFor_snd_eq D c k hc hk
  · intro hD
    rw [chunksFor_length]
    exact chunksFor_last D c hc hD

/-- C8 counterexample: a negative byte budget does not fail fast with an
InvalidConfig error: max_chunk_size = -32000000 at byte rate 32000 gives
C = -1000000, int(C) = -1000000, range(0, 10, -1000000) is empty, and
split_audio silently returns the empty chunk list. -/
theorem C8_counterexample :
    split_audio 10 (-32000000) 16000 2 1 = Except.ok [] ∧ ((-32000000 : ℚ) ≤ 0) := by
  constructor
  · have hC : chunk_duration_ms (-32000000) 16000 2 1 = (-1000000 : ℚ) := by
      unfold chunk_duration_ms
      norm_num
    unfold split_audio
    rw [hC]
    apply split_audio_chunks_neg_step
    norm_num [pytrunc]
  · norm_num

/-- C8 amended: a zero-duration buffer yields the empty chunk sequence
whenever the range step int(C) is nonzero; but for maxBytes <= 0 the code does
not raise an InvalidConfig error: when int(C) = 0 (e.g. maxBytes = 0) range
raises a plain ValueError, and when int(C) is negative split_audio silently
returns an empty chunk list. -/
theorem C8_amended :
    (∀ C : ℚ, pytrunc C ≠ 0 → split_audio_chunks 0 C = Except.ok [])
    ∧ (∀ (D : ℕ) (C : ℚ), pytrunc C = 0 →
        split_audio_chunks D C = Except.error "ValueError: range() arg 3 must not be zero")
    ∧ (∀ (D : ℕ) (C : ℚ), pytrunc C < 0 → split_audio_chunks D C = Except.ok []) :=
  ⟨split_audio_chunks_zero_dur, split_audio_chunks_step_zero, split_audio_chunks_neg_step⟩

/-- C1 (code bug evidence): with two 1000 ms chunks each transcribed to one
segment, the emitted subtitle indices are 1 and then 1 again, because
subtitle_index is a local variable of parse_verbose_json_to_srt reset to 1 on
every per-chunk call; the claimed global numbering would emit 1 then 2.  The
full output shows the duplicated index line (and, correctly, the offset times
of the second chunk). -/
theorem C1_index_restart_eval :
    (transcribe_audio_chunks [⟨1000⟩, ⟨1000⟩] two_chunk_fn "transcription.srt").output
      = "1\n00:00:00,000 --> 00:00:01,000\nHello\n\n1\n00:00:01,000 --> 00:00:02,000\nworld\n" := by
  have f0 : format_time (0 : ℚ) = "00:00:00,000" := by
    simp only [format_time, pymod, pytrunc]
    norm_num
    decide
  have f1 : format_time (1000 : ℚ) = "00:00:01,000" := by
    simp only [format_time, pymod, pytrunc]
    norm_num
    decide
  have f2 : format_time (2000 : ℚ) = "00:00:02,000" := by
    simp only [format_time, pymod, pytrunc]
    norm_num
    decide
  simp only [transcribe_audio_chunks, chunk_loop, two_chunk_fn, parse_verbose_json_to_srt,
    srt_blocks, srt_entry_block]
  norm_num [f0, f1, f2]
  decide

/-- C3 counterexample: for the segment with startSec = endSec = 1/1024 s (an
exactly representable float) and offset 0, the code renders 00:00:00,000
(start*1000 = 125/128 ms is kept unrounded and the rendering truncates), while
the claimed startMs = round(125/128) + 0 = 1 renders 00:00:00,001. -/
theorem C3_counterexample :
    srt_entry_block 1 ⟨1/1024, 1/1024, "x"⟩ 0 = "1\n00:00:00,000 --> 00:00:00,000\nx\n"
    ∧ toEntry_claim ⟨1/1024, 1/1024, "x"⟩ 0 = (1, 1)
    ∧ format_time ((1 : ℤ) : ℚ) = "00:00:00,001"
    ∧ "1\n00:00:00,000 --> 00:00:00,000\nx\n"
        ≠ "1\n" ++ "00:00:00,001" ++ " --> " ++ "00:00:00,001" ++ "\nx\n" := by
  have hf : format_time ((1 : ℚ)/1024 * 1000 + 0) = "00:00:00,000" := by
    simp only [format_time, pymod, pytrunc]
    norm_num
    decide
  refine ⟨?_, ?_, ?_, by decide⟩
  · unfold srt_entry_block
    rw [hf]
    decide
  · unfold toEntry_claim
    norm_num [round_eq]
  · simp only [format_time, pymod, pytrunc]
    norm_num
    decide

/-- C3 amended: the code computes the entry times as
startSec * 1000 + offsetMs exactly (no rounding; truncation happens per field
at rendering time).  Whenever startSec * 1000 and endSec * 1000 are whole
numbers of milliseconds, this coincides with the claimed
round(startSec * 1000) + offsetMs formula, and in particular the documented
5000/7000 ms two-chunk example yields startMs = 6000 and endMs = 7000. -/
theorem C3_amended (idx : ℕ) (seg : TranscriptSegment) (off : ℤ) (a b : ℤ)
    (ha : seg.start * 1000 = (a : ℚ)) (hb : seg.«end» * 1000 = (b : ℚ)) :
    srt_entry_block idx seg ((off : ℤ) : ℚ)
      = toString idx ++ "\n"
        ++ format_time (((toEntry_claim seg off).1 : ℤ) : ℚ) ++ " --> "
        ++ format_time (((toEntry_claim seg off).2 : ℤ) : ℚ) ++ "\n"
        ++ pystrip seg.text ++ "\n" := by
  unfold srt_entry_block toEntry_claim
  rw [ha, hb]
  simp only [round_intCast]
  push_cast
  rfl

/-- Witness for C2_amended at D = 10, c = 3: four chunks 0-3, 3-6, 6-9, 9-10. -/
theorem C2_amended_witness :
    (1 : ℕ) ≤ 3
    ∧ split_audio_chunks 10 ((3 : ℕ) : ℚ) = Except.ok (chunksFor 10 3)
    ∧ chunksFor 10 3 = [((0 : ℚ), 3), (3, 6), (6, 9), (9, 10)] := by
  refine ⟨by norm_num, (C2_amended 10 3 (by norm_num)).1, ?_⟩
  unfold chunksFor
  norm_num [List.range_succ, min_def]

/-- Witness for C3_amended at the documented example: segment 1.0 s to 2.0 s
in the second of two chunks of 5000 ms and 7000 ms, offset 5000: the claimed
entry times are 6000 and 7000 ms. -/
theorem C3_amended_witness :
    srt_entry_block 1 ⟨1, 2, "hello"⟩ ((5000 : ℤ) : ℚ)
        = toString 1 ++ "\n"
          ++ format_time (((toEntry_claim ⟨1, 2, "hello"⟩ 5000).1 : ℤ) : ℚ) ++ " --> "
          ++ format_time (((toEntry_claim ⟨1, 2, "hello"⟩ 5000).2 : ℤ) : ℚ) ++ "\n"
          ++ pystrip "hello" ++ "\n"
    ∧ toEntry_claim ⟨1, 2, "hello"⟩ 5000 = (6000, 7000) := by
  refine ⟨C3_amended 1 ⟨1, 2, "hello"⟩ 5000 1000 2000 (by norm_num) (by norm_num), ?_⟩
  unfold toEntry_claim
  norm_num [round_eq]

/-- Witness for C5 at a failure on chunk 1 of 3. -/
theorem C5_witness :
    (transcribe_audio_chunks [⟨1000⟩, ⟨2000⟩, ⟨3000⟩] ok_then_fail_fn "transcription.srt").truncated
        = true
    ∧ (transcribe_audio_chunks [⟨1000⟩, ⟨2000⟩, ⟨3000⟩] ok_then_fail_fn "transcription.srt").results
        = expectedResults ok_then_fail_fn 0 0 [⟨1000⟩] := by
  have hok : ∀ j cj, ([⟨1000⟩] : List Chunk)[j]? = some cj
      → (ok_then_fail_fn j cj).isOk = true := by
    intro j cj hj
    match j with
    | 0 => rfl
    | j + 1 => simp at hj
  have h := C5_failure_policy [⟨1000⟩] ⟨2000⟩ [⟨3000⟩] ok_then_fail_fn "transcription.srt"
    "boom" hok rfl
  exact ⟨h.2.2.1, h.2.1⟩

/-- Witness for C6: the temp file of the failing chunk 1 is removed. -/
theorem C6_witness :
    FsEvent.removeFile (temp_chunk_path 1)
      ∈ (transcribe_audio_chunks [⟨1000⟩, ⟨2000⟩] ok_then_fail_fn "transcription.srt").events := by
  have hok : ∀ j cj, ([⟨1000⟩] : List Chunk)[j]? = some cj
      → (ok_then_fail_fn j cj).isOk = true := by
    intro j cj hj
    match j with
    | 0 => rfl
    | j + 1 => simp at hj
  exact C6_temp_file_cleanup [⟨1000⟩] ⟨2000⟩ [] ok_then_fail_fn "transcription.srt" hok

/-- Witness for C7_amended on an all-successful two-chunk run of 5000 ms and
7000 ms: chunk 1 is parsed at offset 5000 and the final offset is 12000. -/
theorem C7_amended_witness :
    (transcribe_audio_chunks [⟨5000⟩, ⟨7000⟩] ok_fn "transcription.srt").results[1]?
        = some (parse_verbose_json_to_srt ⟨[⟨0, 1, "a"⟩]⟩ ((durSum [⟨5000⟩] : ℕ) : ℚ))
    ∧ (transcribe_audio_chunks [⟨5000⟩, ⟨7000⟩] ok_fn "transcription.srt").finalOffset
        = durSum [⟨5000⟩, ⟨7000⟩] := by
  have h := C7_amended [⟨5000⟩] ⟨7000⟩ [] ok_fn "transcription.srt" ⟨[⟨0, 1, "a"⟩]⟩
    (fun _ _ _ => rfl) rfl
  exact ⟨h.1, h.2 (fun _ _ _ => rfl)⟩

/-- Witness for C8_amended at concrete durations and budgets. -/
theorem C8_amended_witness :
    split_audio_chunks 0 ((5 : ℚ)) = Except.ok []
    ∧ split_audio_chunks 7 ((1 : ℚ)/2) = Except.error "ValueError: range() arg 3 must not be zero"
    ∧ split_audio_chunks 7 (-3 : ℚ) = Except.ok [] :=
  ⟨C8_amended.1 5 (by norm_num [pytrunc]),
   C8_amended.2.1 7 ((1 : ℚ)/2) (by norm_num [pytrunc]),
   C8_amended.2.2 7 (-3 : ℚ) (by norm_num [pytrunc])⟩

/-- Witness for C9: two syntactically distinct but pointwise equal
transcription functions give the same run. -/
theorem C9_witness :
    transcribe_audio_chunks [⟨1000⟩] ok_fn "transcription.srt"
      = transcribe_audio_chunks [⟨1000⟩] ok_fn2 "transcription.srt" :=
  C9_deterministic [⟨1000⟩] ok_fn ok_fn2 "transcription.srt" (fun _ _ => rfl)

/-- Witness for C10: chunk 1 succeeds with zero segments and contributes the
empty string at position 1 of the results. -/
theorem C10_witness :
    parse_verbose_json_to_srt ⟨[]⟩ 0 = ""
    ∧ (transcribe_audio_chunks [⟨1000⟩, ⟨2000⟩] empty_second_fn "transcription.srt").results[1]?
        = some "" := by
  have hok : ∀ j cj, ([⟨1000⟩] : List Chunk)[j]? = some cj
      → (empty_second_fn j cj).isOk = true := by
    intro j cj hj
    match j with
    | 0 => rfl
    | j + 1 => simp at hj
  exact C10_empty_segments 0 [⟨1000⟩] ⟨2000⟩ [] empty_second_fn "transcription.srt" hok rfl

end SpeechRecognizer
